import Mathlib

/-!
Shallow embedding of `src/easi-translate.py` (EASI Translate): a script that
walks JSON menu documents, selects translatable string leaves, and replaces
each with an enrichment record (original value, pinyin, translation, and
price-triggered web-lookup fields).

Pure helpers (`is_ascii`, `strip_ascii`, `valid_translate_value`,
`traverse_json`, `get_page`'s control flow, and the per-record mutation logic
of `main`) are translated directly; external effects (the pinyin library, the
translation service, the browser) are parameters/oracles.
-/

namespace EasiTranslate

/-- JSON values as produced by Python's `json.load`: dicts keep insertion
order, so objects are association lists; lists, strings, numbers, booleans
and null round out the model. -/
inductive JsonValue : Type where
  | str (s : String)
  | num (n : Int)
  | bool (b : Bool)
  | null
  | arr (xs : List JsonValue)
  | obj (kvs : List (String × JsonValue))

/-- The key position of a value inside its container: a list index
(`enumerate` in the Python) or a dict key. -/
inductive JsonKey : Type where
  | idx (i : Nat)
  | field (k : String)
deriving Repr, DecidableEq

/-- `ASCII_BUT_UNICODE = [0x2018, 0xff08, 0xff09, 0xff0c]` (line 19):
code points treated as effectively ASCII. -/
def ASCII_BUT_UNICODE : List Nat := [0x2018, 0xff08, 0xff09, 0xff0c]

/-- `is_ascii` (lines 21-22): every character has code point below 128 or is
in the allow-list. -/
def is_ascii (s : String) : Bool :=
  s.toList.all fun c => c.toNat < 128 || ASCII_BUT_UNICODE.contains c.toNat

/-- `strip_ascii` (lines 24-25): keep only characters with code point
strictly above 128 that are not in the allow-list. -/
def strip_ascii (s : String) : String :=
  String.mk (s.toList.filter fun c =>
    decide (c.toNat > 128) && !ASCII_BUT_UNICODE.contains c.toNat)

/-- `valid_translate_value` (lines 27-31): a value is selected iff it is a
string that is not `is_ascii`. -/
def valid_translate_value (value : JsonValue) (_key : JsonKey)
    (_context : JsonValue) : Bool :=
  match value with
  | .str s => !is_ascii s
  | _ => false

/-- A triple yielded by the walker: `(value, key, container)`. -/
abbrev Triple := JsonValue × JsonKey × JsonValue

mutual

/-- `traverse_json` (lines 33-43): depth-first generator. For a list,
enumerate elements in index order; for a dict, iterate entries in order; at
each position, first yield the triple if the predicate holds, then recurse
into the value. Scalars yield nothing. -/
def traverse_json (j : JsonValue)
    (p : JsonValue → JsonKey → JsonValue → Bool) : List Triple :=
  match j with
  | .arr xs => traverse_elems xs 0 (.arr xs) p
  | .obj kvs => traverse_fields kvs (.obj kvs) p
  | _ => []

/-- The `for i, x in enumerate(j)` loop of `traverse_json`, with `c` the
original list container and `i` the current index. -/
def traverse_elems (xs : List JsonValue) (i : Nat) (c : JsonValue)
    (p : JsonValue → JsonKey → JsonValue → Bool) : List Triple :=
  match xs with
  | [] => []
  | x :: rest =>
      (if p x (.idx i) c then [(x, .idx i, c)] else [])
        ++ traverse_json x p ++ traverse_elems rest (i + 1) c p

/-- The `for k, v in j.items()` loop of `traverse_json`, with `c` the
original dict container. -/
def traverse_fields (kvs : List (String × JsonValue)) (c : JsonValue)
    (p : JsonValue → JsonKey → JsonValue → Bool) : List Triple :=
  match kvs with
  | [] => []
  | (k, v) :: rest =>
      (if p v (.field k) c then [(v, .field k, c)] else [])
        ++ traverse_json v p ++ traverse_fields rest c p

end

/-- The predicate that accepts everything: used to express that the walker's
recursion structure does not depend on the predicate. -/
def truePred : JsonValue → JsonKey → JsonValue → Bool := fun _ _ _ => true

/-- Containers are lists and dicts; every triple's third component is one. -/
def is_container : JsonValue → Bool
  | .arr _ => true
  | .obj _ => true
  | _ => false

/-- Python's `str.strip()` whitespace set: the characters `c` with
`c.strip() == ""` (bidi classes WS/B/S and category Zs). -/
def py_isspace (c : Char) : Bool :=
  let n := c.toNat
  (0x9 ≤ n && n ≤ 0xd) || (0x1c ≤ n && n ≤ 0x20) || n == 0x85 || n == 0xa0 ||
  n == 0x1680 || (0x2000 ≤ n && n ≤ 0x200a) || n == 0x2028 || n == 0x2029 ||
  n == 0x202f || n == 0x205f || n == 0x3000

/-- Python's `s.strip()`: drop whitespace from both ends. -/
def py_strip (s : String) : String :=
  String.mk (((s.toList.dropWhile py_isspace).reverse.dropWhile
    py_isspace).reverse)

/-- The enrichment record `context[key]` built by `main` (lines 129-164).
Python builds a dict whose optional keys appear only when set; each optional
key is an `Option` field. -/
structure Record : Type where
  value : String
  pinyin : Option String := none
  translation : Option String := none
  knowledge_graph : Option String := none
  google_image : Option String := none
deriving Repr, DecidableEq

/-- Python's `"price" in context` (line 137): key membership for a dict,
element membership (`"price" == x`) for a list. A string `==` test against a
non-string Python value is `False`, so the list case matches only the string
element `"price"`. (Containers yielded by `traverse_json` are always lists
or dicts, so the scalar branch is unreachable in the driver.) -/
def price_in (context : JsonValue) : Bool :=
  match context with
  | .obj kvs => kvs.any fun kv => kv.1 == "price"
  | .arr xs => xs.any fun x =>
      match x with
      | .str s => s == "price"
      | _ => false
  | _ => false

/-- String content of a selected leaf. `valid_translate_value` only accepts
strings, so the driver applies this to `.str` values only. -/
def pystr (v : JsonValue) : String :=
  match v with
  | .str s => s
  | _ => ""

/-- The body of the mutation loop for one selected leaf (lines 129-164),
with the external services as parameters: `pin` is `pinyin.get`, `resp` the
translation response (`none` when the request raised), and
`google_search`/`google_img_search` the non-null results the two retry
loops ended with (only consulted when `priceIn` holds; the loops only run
then).

- `value` is always the original leaf (line 130);
- `pinyin` is attached iff `strip_ascii(value).strip()` is non-empty, and
  is computed from the untrimmed `strip_ascii(value)` (lines 133-135);
- `knowledge_graph`/`google_image` are attached iff `"price" in context`
  and the corresponding lookup result list is non-empty, taking its first
  element (lines 155-159);
- `translation` is attached iff the response is non-null and `j` is below
  the number of returned translations, taking the one at index `j`
  (lines 163-164). -/
def mkRecord (pin : String → String) (value : String) (j : Nat)
    (resp : Option (List String)) (priceIn : Bool)
    (google_search google_img_search : List String) : Record :=
  { value := value
    pinyin :=
      if (py_strip (strip_ascii value)).length > 0 then
        some (pin (strip_ascii value))
      else none
    knowledge_graph := if priceIn then google_search.head? else none
    google_image := if priceIn then google_img_search.head? else none
    translation := resp.bind fun ts => ts[j]? }

/-- The mutation pass of `main` (lines 124-164): re-walk the document with
the same predicate and build, for the `j`-th visited triple, its record.
`lk j` is the pair of (non-null) lookup-result lists the retry loops deliver
for position `j`. -/
def mutation_pass (pin : String → String) (resp : Option (List String))
    (lk : Nat → List String × List String) (doc : JsonValue) : List Record :=
  (traverse_json doc valid_translate_value).enum.map fun jt =>
    mkRecord pin (pystr jt.2.1) jt.1 resp (price_in jt.2.2.2)
      (lk jt.1).1 (lk jt.1).2

/-- The collection pass of `main` (lines 108-110): the ordered list of
selected values. -/
def all_translation_values (doc : JsonValue) : List JsonValue :=
  (traverse_json doc valid_translate_value).map fun t => t.1

/-- Outcome of `driver.get(url)` in `get_page` (lines 49-53): success, or an
exception; any exception there (including `InvalidSessionIdException`) is
caught by the generic handler, which logs and leaves `page = False`. The
flag records whether the exception was session-invalidity. -/
inductive NavOutcome : Type where
  | ok
  | err (sessionInvalid : Bool)
deriving Repr, DecidableEq

/-- Outcome of one xpath lookup in `get_page` (lines 57-63): an element
found whose requested attribute is `s`, an `InvalidSessionIdException`, or
any other exception (swallowed by `pass`). -/
inductive ElemOutcome : Type where
  | found (s : String)
  | invalidSession
  | err
deriving Repr, DecidableEq

/-- The `for xpath, attr in xpaths` loop of `get_page` (lines 56-63):
accumulate found attributes; return `None` on the first
`InvalidSessionIdException`; skip any other exception. -/
def get_page_elems (xs : List ElemOutcome) : Option (List String) :=
  match xs with
  | [] => some []
  | .found s :: rest => (get_page_elems rest).map fun acc => s :: acc
  | .invalidSession :: _ => none
  | .err :: rest => get_page_elems rest

/-- `get_page` (lines 45-65) over outcome oracles: if navigation fails
(for whatever reason) the element loop is skipped and the empty `results`
list is returned; otherwise the element loop runs. -/
def get_page (nav : NavOutcome) (xs : List ElemOutcome) :
    Option (List String) :=
  match nav with
  | .err _ => some []
  | .ok => get_page_elems xs

/-- The first retry loop of `main` (lines 138-145, knowledge-panel lookup)
over the sequence of successive `get_page` results: loop while the result
is `None`, acquiring a fresh driver after each `None`. Returns the final
non-null result paired with the number of fresh sessions acquired, or
`none` if the oracle trace ends with the loop still running. -/
def kg_retry_loop (trace : List (Option (List String))) :
    Option (List String × Nat) :=
  match trace with
  | [] => none
  | none :: rest => (kg_retry_loop rest).map fun r => (r.1, r.2 + 1)
  | some v :: _ => some (v, 0)

/-- The second retry loop of `main` (lines 147-153, image lookup): loop
while `google_img_search` is `None`, but the refresh guard on line 152
tests `google_search is None` — the knowledge-panel result — so a fresh
driver is acquired after an iteration only when `gsIsNone` holds. At the
call site the first loop has already ended with a non-null `google_search`,
so `gsIsNone` is `false` there. -/
def img_retry_loop (gsIsNone : Bool)
    (trace : List (Option (List String))) : Option (List String × Nat) :=
  match trace with
  | [] => none
  | none :: rest =>
      (img_retry_loop gsIsNone rest).map fun r =>
        (r.1, r.2 + (if gsIsNone then 1 else 0))
  | some v :: _ => some (v, if gsIsNone then 1 else 0)

/-- The price-triggered lookup pair (lines 138-153): run the
knowledge-panel retry loop, then the image retry loop; by then
`google_search` is non-null, so the image loop's refresh guard is `false`.
Each component is the final result with its fresh-session count. -/
def price_lookups (kgTrace imgTrace : List (Option (List String))) :
    Option ((List String × Nat) × (List String × Nat)) :=
  (kg_retry_loop kgTrace).bind fun kg =>
    (img_retry_loop false imgTrace).map fun img => (kg, img)

/-- The projection claimed by the spec, following its words: remove every
character that is ASCII (code point below 128) or in the punctuation
allow-list, then whitespace-trim. To be compared with the source's
`strip_ascii` (which keeps only code points strictly above 128) followed by
`strip()`. -/
def claimed_projection (s : String) : String :=
  py_strip (String.mk (s.toList.filter fun c =>
    !(decide (c.toNat < 128) || ASCII_BUT_UNICODE.contains c.toNat)))

/-- The amended projection: remove every character whose code point is at
most 128 (ASCII or U+0080) or is in the allow-list, then whitespace-trim. -/
def amended_projection (s : String) : String :=
  py_strip (String.mk (s.toList.filter fun c =>
    !(decide (c.toNat ≤ 128) || ASCII_BUT_UNICODE.contains c.toNat)))

/-- The string extracted by a successful element lookup, `none` for the
skipped failures: used to state which data `get_page` accumulates. -/
def elem_found : ElemOutcome → Option String
  | .found s => some s
  | _ => none

/-! ## Helper lemmas about the walker -/

mutual

/-- Every triple emitted by the walker satisfies the predicate. -/
theorem pred_of_mem_traverse (j : JsonValue)
    (p : JsonValue → JsonKey → JsonValue → Bool) :
    ∀ t ∈ traverse_json j p, p t.1 t.2.1 t.2.2 = true := by
  match j with
  | .arr xs => simpa [traverse_json] using pred_of_mem_elems xs 0 (.arr xs) p
  | .obj kvs =>
    simpa [traverse_json] using pred_of_mem_fields kvs (.obj kvs) p
  | .str s => simp [traverse_json]
  | .num n => simp [traverse_json]
  | .bool b => simp [traverse_json]
  | .null => simp [traverse_json]

theorem pred_of_mem_elems (xs : List JsonValue) (i : Nat) (c : JsonValue)
    (p : JsonValue → JsonKey → JsonValue → Bool) :
    ∀ t ∈ traverse_elems xs i c p, p t.1 t.2.1 t.2.2 = true := by
  match xs with
  | [] => simp [traverse_elems]
  | x :: rest =>
    intro t ht
    rw [traverse_elems] at ht
    simp only [List.mem_append] at ht
    rcases ht with (h | h) | h
    · by_cases hp : p x (.idx i) c <;> simp [hp] at h
      simp [h, hp]
    · exact pred_of_mem_traverse x p t h
    · exact pred_of_mem_elems rest (i + 1) c p t h

theorem pred_of_mem_fields (kvs : List (String × JsonValue)) (c : JsonValue)
    (p : JsonValue → JsonKey → JsonValue → Bool) :
    ∀ t ∈ traverse_fields kvs c p, p t.1 t.2.1 t.2.2 = true := by
  match kvs with
  | [] => simp [traverse_fields]
  | (k, v) :: rest =>
    intro t ht
    rw [traverse_fields] at ht
    simp only [List.mem_append] at ht
    rcases ht with (h | h) | h
    · by_cases hp : p v (.field k) c <;> simp [hp] at h
      simp [h, hp]
    · exact pred_of_mem_traverse v p t h
    · exact pred_of_mem_fields rest c p t h

end

mutual

/-- Every triple emitted by the walker has a list or dict container. -/
theorem container_of_mem_traverse (j : JsonValue)
    (p : JsonValue → JsonKey → JsonValue → Bool) :
    ∀ t ∈ traverse_json j p, is_container t.2.2 = true := by
  match j with
  | .arr xs =>
    simpa [traverse_json] using
      container_of_mem_elems xs 0 (.arr xs) p rfl
  | .obj kvs =>
    simpa [traverse_json] using
      container_of_mem_fields kvs (.obj kvs) p rfl
  | .str s => simp [traverse_json]
  | .num n => simp [traverse_json]
  | .bool b => simp [traverse_json]
  | .null => simp [traverse_json]

theorem container_of_mem_elems (xs : List JsonValue) (i : Nat)
    (c : JsonValue) (p : JsonValue → JsonKey → JsonValue → Bool)
    (hc : is_container c = true) :
    ∀ t ∈ traverse_elems xs i c p, is_container t.2.2 = true := by
  match xs with
  | [] => simp [traverse_elems]
  | x :: rest =>
    intro t ht
    rw [traverse_elems] at ht
    simp only [List.mem_append] at ht
    rcases ht with (h | h) | h
    · by_cases hp : p x (.idx i) c <;> simp [hp] at h
      simp [h, hc]
    · exact container_of_mem_traverse x p t h
    · exact container_of_mem_elems rest (i + 1) c p hc t h

theorem container_of_mem_fields (kvs : List (String × JsonValue))
    (c : JsonValue) (p : JsonValue → JsonKey → JsonValue → Bool)
    (hc : is_container c = true) :
    ∀ t ∈ traverse_fields kvs c p, is_container t.2.2 = true := by
  match kvs with
  | [] => simp [traverse_fields]
  | (k, v) :: rest =>
    intro t ht
    rw [traverse_fields] at ht
    simp only [List.mem_append] at ht
    rcases ht with (h | h) | h
    · by_cases hp : p v (.field k) c <;> simp [hp] at h
      simp [h, hc]
    · exact container_of_mem_traverse v p t h
    · exact container_of_mem_fields rest c p hc t h

end

mutual

/-- The walker with an arbitrary predicate is the walker with the
always-true predicate filtered by it: the predicate controls emission only,
never recursion. -/
theorem traverse_eq_filter (j : JsonValue)
    (p : JsonValue → JsonKey → JsonValue → Bool) :
    traverse_json j p =
      (traverse_json j truePred).filter fun t => p t.1 t.2.1 t.2.2 := by
  match j with
  | .arr xs =>
    rw [traverse_json, traverse_json]
    exact traverse_elems_eq_filter xs 0 (.arr xs) p
  | .obj kvs =>
    rw [traverse_json, traverse_json]
    exact traverse_fields_eq_filter kvs (.obj kvs) p
  | .str s => simp [traverse_json]
  | .num n => simp [traverse_json]
  | .bool b => simp [traverse_json]
  | .null => simp [traverse_json]

theorem traverse_elems_eq_filter (xs : List JsonValue) (i : Nat)
    (c : JsonValue) (p : JsonValue → JsonKey → JsonValue → Bool) :
    traverse_elems xs i c p =
      (traverse_elems xs i c truePred).filter fun t => p t.1 t.2.1 t.2.2 := by
  match xs with
  | [] => simp [traverse_elems]
  | x :: rest =>
    rw [traverse_elems, traverse_elems]
    rw [List.filter_append, List.filter_append]
    rw [← traverse_eq_filter x p, ← traverse_elems_eq_filter rest (i + 1) c p]
    by_cases hp : p x (.idx i) c <;> simp [truePred, hp]

theorem traverse_fields_eq_filter (kvs : List (String × JsonValue))
    (c : JsonValue) (p : JsonValue → JsonKey → JsonValue → Bool) :
    traverse_fields kvs c p =
      (traverse_fields kvs c truePred).filter fun t => p t.1 t.2.1 t.2.2 := by
  match kvs with
  | [] => simp [traverse_fields]
  | (k, v) :: rest =>
    rw [traverse_fields, traverse_fields]
    rw [List.filter_append, List.filter_append]
    rw [← traverse_eq_filter v p, ← traverse_fields_eq_filter rest c p]
    by_cases hp : p v (.field k) c <;> simp [truePred, hp]

end

/-- A string fails `is_ascii` exactly when some character has code point at
least 128 and outside the allow-list. -/
theorem not_is_ascii_iff (s : String) :
    (!is_ascii s) = true ↔
      ∃ ch ∈ s.toList, 128 ≤ ch.toNat ∧ ch.toNat ∉ ASCII_BUT_UNICODE := by
  simp [is_ascii, Nat.not_lt]

/-! ## Claim theorems -/

/-- C1. Walker order determinism: `traverse_json` is a pure function of the
document and the predicate (dicts are modelled as the insertion-ordered
association lists Python guarantees), so walking an unmodified document
twice yields the identical sequence of `(value, key, container)` triples,
and in particular identical `(key, container)` pairs. -/
theorem C1_walker_determinism (d : JsonValue)
    (p : JsonValue → JsonKey → JsonValue → Bool) :
    traverse_json d p = traverse_json d p ∧
    (traverse_json d p).map (fun t => (t.2.1, t.2.2)) =
      (traverse_json d p).map (fun t => (t.2.1, t.2.2)) :=
  ⟨rfl, rfl⟩

/-- C3. The driver's predicate selects exactly the strings containing at
least one character with code point at least 128 outside the allow-list
`{U+2018, U+FF08, U+FF09, U+FF0C}`; of `"Hello"`, `"你好"`,
`"你好, world（ok）"`, `"123"`, exactly the second and third are selected. -/
theorem C3_predicate_selection (v : JsonValue) (k : JsonKey) (c : JsonValue) :
    (valid_translate_value v k c = true ↔
      ∃ s, v = .str s ∧ ∃ ch ∈ s.toList,
        128 ≤ ch.toNat ∧ ch.toNat ∉ ASCII_BUT_UNICODE) ∧
    valid_translate_value (.str "Hello") k c = false ∧
    valid_translate_value (.str "你好") k c = true ∧
    valid_translate_value (.str "你好, world（ok）") k c = true ∧
    valid_translate_value (.str "123") k c = false := by
  refine ⟨?_, rfl, rfl, rfl, rfl⟩
  match v with
  | .str s =>
    rw [valid_translate_value, not_is_ascii_iff]
    constructor
    · intro h; exact ⟨s, rfl, h⟩
    · rintro ⟨s', hs', h⟩
      cases hs'; exact h
  | .num n => simp [valid_translate_value]
  | .bool b => simp [valid_translate_value]
  | .null => simp [valid_translate_value]
  | .arr xs => simp [valid_translate_value]
  | .obj kvs => simp [valid_translate_value]

/-- C8. The walker recurses into every element and mapping value regardless
of the predicate (its traversal with any predicate is the always-true
traversal filtered by that predicate), visits list elements in index order,
and emits a matching value before recursing into it; a composite value
matching the predicate is emitted and then still traversed into, as the
concrete nested-list run shows. -/
theorem C8_recursion_and_preorder (d : JsonValue)
    (p : JsonValue → JsonKey → JsonValue → Bool) (x : JsonValue)
    (xs : List JsonValue) (i : Nat) (c : JsonValue) (k : String)
    (v : JsonValue) (kvs : List (String × JsonValue)) :
    (traverse_json d p =
      (traverse_json d truePred).filter fun t => p t.1 t.2.1 t.2.2) ∧
    traverse_json (.arr (x :: xs)) p =
      traverse_elems (x :: xs) 0 (.arr (x :: xs)) p ∧
    traverse_elems (x :: xs) i c p =
      (if p x (.idx i) c then [(x, .idx i, c)] else [])
        ++ traverse_json x p ++ traverse_elems xs (i + 1) c p ∧
    traverse_fields ((k, v) :: kvs) c p =
      (if p v (.field k) c then [(v, .field k, c)] else [])
        ++ traverse_json v p ++ traverse_fields kvs c p ∧
    traverse_json (.arr [.arr [.str "你好"]]) truePred =
      [(.arr [.str "你好"], .idx 0, .arr [.arr [.str "你好"]]),
       (.str "你好", .idx 0, .arr [.str "你好"])] :=
  ⟨traverse_eq_filter d p, rfl, by rw [traverse_elems], by rw [traverse_fields],
    rfl⟩

/-- C9. A scalar root yields nothing, and every triple the walker ever
emits has a list or dict container: the root value itself is never
emitted. -/
theorem C9_scalar_root_yields_nothing
    (p : JsonValue → JsonKey → JsonValue → Bool) (s : String) (n : Int)
    (b : Bool) (d : JsonValue) :
    traverse_json (.str s) p = [] ∧
    traverse_json (.num n) p = [] ∧
    traverse_json (.bool b) p = [] ∧
    traverse_json .null p = [] ∧
    (traverse_json d p).all (fun t => is_container t.2.2) = true := by
  refine ⟨rfl, rfl, rfl, rfl, ?_⟩
  rw [List.all_eq_true]
  exact container_of_mem_traverse d p

/-- A string has positive length exactly when it is non-empty. -/
theorem string_length_pos_iff (s : String) : 0 < s.length ↔ s ≠ "" := by
  rw [show s.length = s.data.length from rfl, List.length_pos]
  constructor
  · intro h heq
    exact h (by simp [heq])
  · intro h hd
    exact h (String.ext (by simpa using hd))

/-- Indexing the mutation pass: the record at position `j` is built from
the `j`-th triple of the (re-)walk. -/
theorem mutation_pass_getElem? (pin : String → String)
    (resp : Option (List String)) (lk : Nat → List String × List String)
    (doc : JsonValue) (j : Nat) :
    (mutation_pass pin resp lk doc)[j]? =
      ((traverse_json doc valid_translate_value)[j]?).map fun t =>
        mkRecord pin (pystr t.1) j resp (price_in t.2.2)
          (lk j).1 (lk j).2 := by
  rw [mutation_pass, List.getElem?_map,
    List.getElem?_enum (traverse_json doc valid_translate_value) j]
  cases (traverse_json doc valid_translate_value)[j]? <;> rfl

/-- C2. The record at visitation position `j` carries a translation iff the
batch request succeeded and `j` is below the number of returned
translations, and then it is the translation at index `j` (purely
positional pairing); on request failure no record gets a translation. -/
theorem C2_translation_alignment (pin : String → String)
    (resp : Option (List String)) (lk : Nat → List String × List String)
    (doc : JsonValue) (j : Nat) (r : Record)
    (hr : (mutation_pass pin resp lk doc)[j]? = some r) :
    (∀ t, r.translation = some t ↔ ∃ ts, resp = some ts ∧ ts[j]? = some t) ∧
    (resp = none → r.translation = none) := by
  rw [mutation_pass_getElem?] at hr
  cases h : (traverse_json doc valid_translate_value)[j]? with
  | none => rw [h] at hr; simp at hr
  | some t =>
    rw [h] at hr
    simp only [Option.map_some'] at hr
    cases hr
    refine ⟨fun tr => ?_, fun hre => by simp [mkRecord, hre]⟩
    simp [mkRecord, Option.bind_eq_some]

/-- C2 witness: with one selected value and response `["hello"]`, the
record at position 0 carries translation `"hello"`. -/
theorem C2_translation_alignment_witness :
    ∃ r, (mutation_pass (fun _ => "") (some ["hello"]) (fun _ => ([], []))
        (.arr [.str "你好"]))[0]? = some r ∧ r.translation = some "hello" := by
  refine ⟨_, rfl, ?_⟩
  have h := C2_translation_alignment (fun _ => "") (some ["hello"])
    (fun _ => ([], [])) (.arr [.str "你好"]) 0 _ rfl
  exact (h.1 "hello").mpr ⟨["hello"], rfl, rfl⟩

/-- C7. Every record written by the mutation pass keeps `value` equal to
the original leaf string, and each optional field is present only when its
computation succeeded: pinyin only if the projection is non-empty,
translation only if the response holds an entry at `j`, and the two lookup
fields only if the position is price-triggered and the lookup result list
is non-empty. -/
theorem C7_record_invariant (pin : String → String)
    (resp : Option (List String)) (lk : Nat → List String × List String)
    (doc : JsonValue) (j : Nat) (r : Record) (t : Triple)
    (ht : (traverse_json doc valid_translate_value)[j]? = some t)
    (hr : (mutation_pass pin resp lk doc)[j]? = some r) :
    JsonValue.str r.value = t.1 ∧
    (r.pinyin ≠ none → py_strip (strip_ascii r.value) ≠ "") ∧
    (r.translation ≠ none → ∃ ts, resp = some ts ∧ j < ts.length) ∧
    (r.knowledge_graph ≠ none → price_in t.2.2 = true ∧ (lk j).1 ≠ []) ∧
    (r.google_image ≠ none → price_in t.2.2 = true ∧ (lk j).2 ≠ []) := by
  rw [mutation_pass_getElem?, ht] at hr
  simp only [Option.map_some'] at hr
  have hpred := pred_of_mem_traverse doc valid_translate_value t
    (List.getElem?_mem ht)
  obtain ⟨s, hs⟩ : ∃ s, t.1 = .str s := by
    cases h1 : t.1 <;> rw [h1] at hpred <;>
      simp [valid_translate_value] at hpred
    exact ⟨_, rfl⟩
  cases hr
  refine ⟨?_, ?_, ?_, ?_, ?_⟩
  · rw [mkRecord, hs]; rfl
  · intro hp
    rw [mkRecord] at hp
    simp only at hp
    by_cases hc : 0 < (py_strip (strip_ascii (pystr t.1))).length
    · exact (string_length_pos_iff _).mp hc
    · rw [if_neg hc] at hp; exact absurd rfl hp
  · intro htr
    rw [mkRecord] at htr
    simp only at htr
    cases hresp : resp with
    | none => rw [hresp] at htr; simp at htr
    | some ts =>
      rw [hresp] at htr
      simp only [Option.some_bind, ne_eq] at htr
      refine ⟨ts, rfl, ?_⟩
      by_contra hlen
      rw [List.getElem?_eq_none (by omega)] at htr
      exact htr rfl
  · intro hkg
    rw [mkRecord] at hkg
    simp only at hkg
    by_cases hpr : price_in t.2.2 = true
    · refine ⟨hpr, ?_⟩
      rw [if_pos hpr] at hkg
      intro hnil
      rw [hnil] at hkg
      exact hkg rfl
    · rw [if_neg hpr] at hkg; exact absurd rfl hkg
  · intro hgi
    rw [mkRecord] at hgi
    simp only at hgi
    by_cases hpr : price_in t.2.2 = true
    · refine ⟨hpr, ?_⟩
      rw [if_pos hpr] at hgi
      intro hnil
      rw [hnil] at hgi
      exact hgi rfl
    · rw [if_neg hpr] at hgi; exact absurd rfl hgi

/-- C7 witness: a priced menu item gets all fields, with `value` the
original leaf. -/
theorem C7_record_invariant_witness :
    JsonValue.str "烤鸭" =
      (JsonValue.str "烤鸭", JsonKey.field "name",
        JsonValue.obj [("price", .num 88), ("name", .str "烤鸭")]).1 ∧
    ((some "kao ya" : Option String) ≠ none →
      py_strip (strip_ascii "烤鸭") ≠ "") ∧
    ((some "Roast Duck" : Option String) ≠ none →
      ∃ ts, (some ["Roast Duck"] : Option (List String)) = some ts ∧
        0 < ts.length) ∧
    ((some "KG" : Option String) ≠ none →
      price_in (JsonValue.str "烤鸭", JsonKey.field "name",
        JsonValue.obj [("price", .num 88), ("name", .str "烤鸭")]).2.2 = true ∧
      (["KG"], ["IMG"]).1 ≠ ([] : List String)) ∧
    ((some "IMG" : Option String) ≠ none →
      price_in (JsonValue.str "烤鸭", JsonKey.field "name",
        JsonValue.obj [("price", .num 88), ("name", .str "烤鸭")]).2.2 = true ∧
      (["KG"], ["IMG"]).2 ≠ ([] : List String)) := by
  have h := C7_record_invariant (fun _ => "kao ya") (some ["Roast Duck"])
    (fun _ => (["KG"], ["IMG"]))
    (.obj [("price", .num 88), ("name", .str "烤鸭")]) 0
    { value := "烤鸭", pinyin := some "kao ya",
      translation := some "Roast Duck", knowledge_graph := some "KG",
      google_image := some "IMG" }
    (JsonValue.str "烤鸭", JsonKey.field "name",
      JsonValue.obj [("price", .num 88), ("name", .str "烤鸭")])
    rfl rfl
  exact h

/-- C4 counterexample. The claim fails twice on the code: the value
`"（）、"` is not all allow-listed (`、` is U+3001, outside the allow-list),
so its projection is `"、"` and a pinyin field IS attached; and the claimed
removal of exactly the ASCII characters differs from `strip_ascii` at
U+0080, which has code point 128 and is removed by the code though it is
not ASCII. -/
theorem C4_counterexample :
    (claimed_projection "（）、" ≠ "" ∧
      (mkRecord (fun _ => "dùn") "（）、" 0 none false [] []).pinyin ≠ none) ∧
    claimed_projection "\u0080" ≠ py_strip (strip_ascii "\u0080") := by
  decide

/-- C4 amended. The pinyin projection equals the value with every character
whose code point is at most 128 (ASCII or U+0080) or in the allow-list
removed, then whitespace-trimmed; a pinyin field is attached iff this
projection is non-empty. In particular for `"（）、"` the projection is
`"、"`, which is non-empty, so a pinyin field IS attached (with the pinyin
of `"、"`). -/
theorem C4_amended_projection (pin : String → String) (s : String) (j : Nat)
    (resp : Option (List String)) (priceIn : Bool) (g1 g2 : List String) :
    amended_projection s = py_strip (strip_ascii s) ∧
    ((mkRecord pin s j resp priceIn g1 g2).pinyin ≠ none ↔
      py_strip (strip_ascii s) ≠ "") ∧
    amended_projection "（）、" = "、" ∧
    (mkRecord pin "（）、" j resp priceIn g1 g2).pinyin = some (pin "、") := by
  have hproj : ∀ s' : String,
      amended_projection s' = py_strip (strip_ascii s') := by
    intro s'
    rw [amended_projection, strip_ascii]
    congr 2
    apply List.filter_congr
    intro c _
    by_cases h1 : c.toNat ≤ 128 <;>
      by_cases h2 : ASCII_BUT_UNICODE.contains c.toNat <;>
        simp [h1, h2, show (128 < c.toNat) ↔ ¬(c.toNat ≤ 128) by omega]
  have hstrip : strip_ascii "（）、" = "、" := by decide
  refine ⟨hproj s, ?_, ?_, ?_⟩
  · rw [mkRecord]
    simp only [ne_eq]
    by_cases hc : 0 < (py_strip (strip_ascii s)).length
    · rw [if_pos hc]
      simp [(string_length_pos_iff _).mp hc]
    · rw [if_neg hc]
      simp only [not_true_eq_false, false_iff, Decidable.not_not]
      have := mt (string_length_pos_iff (py_strip (strip_ascii s))).mpr hc
      simpa using this
  · rw [hproj]; decide
  · rw [mkRecord]
    simp only [hstrip]
    rw [if_pos (by decide)]

/-- C5. The code contradicts the claim for the image lookup: the
knowledge-panel retry loop acquires a fresh session after each null result
(count 1 for trace `[None, []]`), but the image retry loop's refresh guard
tests `google_search` — non-null once that loop runs — so a null image
lookup is retried with zero fresh sessions acquired. -/
theorem C5_image_retry_without_refresh :
    kg_retry_loop [none, some []] = some ([], 1) ∧
    price_lookups [some ["kg"]] [none, some ["img"]] =
      some ((["kg"], 0), (["img"], 0)) := by decide

/-- C6 counterexample. A session-invalid signal raised during navigation
(`driver.get`) is caught by the generic handler and yields the empty result
list, not `None`, contradicting the claimed iff. -/
theorem C6_counterexample :
    get_page (.err true) [.found "x"] = some [] ∧
    get_page (.err true) [.found "x"] ≠ none := by decide

/-- The element loop returns `None` exactly when an
`InvalidSessionIdException` occurs at some xpath. -/
theorem get_page_elems_eq_none_iff (xs : List ElemOutcome) :
    get_page_elems xs = none ↔ ElemOutcome.invalidSession ∈ xs := by
  induction xs with
  | nil => simp [get_page_elems]
  | cons x rest ih =>
    cases x with
    | found s => simpa [get_page_elems] using ih
    | invalidSession => simp [get_page_elems]
    | err => simpa [get_page_elems] using ih

/-- Without a session-invalid signal, the element loop collects exactly the
found attributes, skipping other failures. -/
theorem get_page_elems_eq_filterMap (xs : List ElemOutcome)
    (h : ElemOutcome.invalidSession ∉ xs) :
    get_page_elems xs = some (xs.filterMap elem_found) := by
  induction xs with
  | nil => simp [get_page_elems, elem_found]
  | cons x rest ih =>
    rw [List.mem_cons, not_or] at h
    cases x with
    | found s => simp [get_page_elems, elem_found, ih h.2]
    | invalidSession => exact absurd rfl h.1
    | err => simp [get_page_elems, elem_found, ih h.2]

/-- C6 amended. `get_page` returns `None` iff navigation succeeded and a
session-invalid signal was raised during an element lookup; any navigation
failure — including a session-invalid signal raised there — yields the
empty (non-null) result list; and when no session-invalid signal occurs,
the result collects exactly the successfully found attributes, with each
other element failure's data absent. -/
theorem C6_amended_get_page (nav : NavOutcome) (xs : List ElemOutcome) :
    (get_page nav xs = none ↔
      nav = .ok ∧ ElemOutcome.invalidSession ∈ xs) ∧
    (∀ b, get_page (.err b) xs = some []) ∧
    (ElemOutcome.invalidSession ∉ xs →
      get_page .ok xs = some (xs.filterMap elem_found)) := by
  refine ⟨?_, fun b => rfl, fun h => get_page_elems_eq_filterMap xs h⟩
  cases nav with
  | ok => simpa [get_page] using get_page_elems_eq_none_iff xs
  | err b => simp [get_page]

/-- C6 witness: with a found element and one ordinary failure, `get_page`
returns just the found attribute. -/
theorem C6_amended_get_page_witness :
    ElemOutcome.invalidSession ∉ [ElemOutcome.found "a", ElemOutcome.err] ∧
    get_page .ok [ElemOutcome.found "a", ElemOutcome.err] = some ["a"] := by
  have h := C6_amended_get_page .ok [ElemOutcome.found "a", ElemOutcome.err]
  exact ⟨by decide, (h.2.2 (by decide)).trans (by decide)⟩

/-- C10. The lookups are gated by Python's `"price" in context`: key
membership for a dict container, but string-element membership for a list
container — so a selected string inside a list that also contains the
string `"price"` triggers the lookups, as the concrete run shows. -/
theorem C10_price_membership (kvs : List (String × JsonValue))
    (xs : List JsonValue) :
    (price_in (.obj kvs) = true ↔ ∃ kv ∈ kvs, kv.1 = "price") ∧
    (price_in (.arr xs) = true ↔ JsonValue.str "price" ∈ xs) ∧
    mutation_pass (fun _ => "") none (fun _ => (["KG"], ["IMG"]))
        (.arr [.str "price", .str "你好"]) =
      [{ value := "你好", pinyin := some "",
         knowledge_graph := some "KG", google_image := some "IMG",
         translation := none }] := by
  refine ⟨?_, ?_, by decide⟩
  · simp [price_in]
  · rw [price_in]
    simp only [List.any_eq_true]
    constructor
    · rintro ⟨x, hx, hpx⟩
      match x with
      | .str s =>
        have : s = "price" := by simpa using hpx
        rw [← this]; exact hx
    · intro hx
      exact ⟨.str "price", hx, by simp⟩

end EasiTranslate
